import Mathlib

/-!
Shallow embedding of the embedding-benchmark harness:
  src/embedding_bench/benchmark_embedding.py
  src/embedding_bench/process_results.py

Python floats are modelled as exact rationals (`ℚ`); Python's `round`
is modelled as round-half-to-even on rationals at the requested number
of decimal digits; `int(x)` is truncation toward zero; list indexing
carries Python's negative-index wraparound.  External effects (HTTP
latencies, the wall clock, NVML power readings, request failures) enter
the model as explicit parameters.
-/

namespace EmbeddingBench

/-- Python `int(q)`: truncation toward zero. -/
def pyInt (q : ℚ) : ℤ :=
  if 0 ≤ q then ⌊q⌋ else -⌊-q⌋

/-- Round a rational to the nearest integer, ties to the even integer
(Python's `round` tie-breaking rule). -/
def roundHalfEven (q : ℚ) : ℤ :=
  if q - ⌊q⌋ < 1/2 then ⌊q⌋
  else if 1/2 < q - ⌊q⌋ then ⌊q⌋ + 1
  else if ⌊q⌋ % 2 = 0 then ⌊q⌋ else ⌊q⌋ + 1

/-- Python `round(q, n)`: round to `n` decimal digits, ties to even. -/
def pyRound (n : ℕ) (q : ℚ) : ℚ :=
  (roundHalfEven (q * 10 ^ n) : ℚ) / 10 ^ n

/-- Python `list.sort()` on floats: ascending stable sort. -/
def pySort (l : List ℚ) : List ℚ :=
  l.mergeSort (fun a b => decide (a ≤ b))

/-- Python list indexing `l[i]`, including the negative-index wraparound
`l[-k] = l[len(l) - k]`.  An index that is out of range even after
wraparound would raise `IndexError` in Python; the model returns `0`
there, and every theorem below only uses in-range indices. -/
def pyIndex (l : List ℚ) (i : ℤ) : ℚ :=
  if i < 0 then l.getD ((l.length + i).toNat) 0 else l.getD i.toNat 0

/-- Arithmetic mean of a list of samples (`sum(samples) / len(samples)`). -/
def mean (l : List ℚ) : ℚ :=
  l.sum / l.length

/-! ## PowerMonitor (benchmark_embedding.py lines 32-70)

The NVML polling thread is modelled by an explicit state: the samples
appended so far and whether a polling thread is running.  Whether NVML
initialisation succeeded at process start (`_NVML_AVAILABLE`) and the
sequence of readings the poll loop would collect during the measurement
window are parameters of the model. -/

structure PowerMonitor where
  samples : List ℚ
  threadRunning : Bool
deriving DecidableEq

/-- A monitor as constructed by `PowerMonitor.__init__`. -/
def PowerMonitor.mk0 : PowerMonitor :=
  { samples := [], threadRunning := false }

/-- `PowerMonitor.start`: a no-op when NVML is unavailable, otherwise
clears the sample list and launches the polling thread. -/
def PowerMonitor.start (available : Bool) (m : PowerMonitor) : PowerMonitor :=
  if available then { samples := [], threadRunning := true } else m

/-- The samples the polling thread appends during the measurement
window (one summed reading per poll tick); nothing is appended when no
thread is running. -/
def PowerMonitor.observe (polled : List ℚ) (m : PowerMonitor) : PowerMonitor :=
  if m.threadRunning then { m with samples := m.samples ++ polled } else m

/-- `PowerMonitor.stop`: returns `none` when NVML is unavailable or no
thread was started, joins and clears the thread, and returns the mean
power (`sum / len`) unless no samples were collected. -/
def PowerMonitor.stop (available : Bool) (m : PowerMonitor) : PowerMonitor × Option ℚ :=
  if available = false ∨ m.threadRunning = false then (m, none)
  else ({ m with threadRunning := false },
        if m.samples.isEmpty then none else some (mean m.samples))

/-- The `power_stats` value observed by `run_sweep_point`:
`monitor.start(); ...window...; monitor.stop()` projected to the
returned statistics (`power_stats["power_avg_w"]` when present). -/
def powerStats (available : Bool) (polled : List ℚ) : Option ℚ :=
  (((PowerMonitor.mk0.start available).observe polled).stop available).2

/-! ## Sweep-point metrics (benchmark_embedding.py lines 137-171) -/

/-- The JSON object returned by `run_sweep_point` (one persisted result
record per sweep point).  The three power fields are nullable. -/
structure ResultRecord where
  model : String
  chunk_size : ℕ
  batch_size : ℕ
  concurrency : ℕ
  num_requests : ℕ
  completed_requests : ℕ
  elapsed_sec : ℚ
  p50_latency_ms : ℚ
  p99_latency_ms : ℚ
  throughput_emb_per_sec : ℚ
  throughput_per_user : ℚ
  power_avg_w : Option ℚ
  energy_joules : Option ℚ
  emb_per_joule : Option ℚ
deriving DecidableEq

/-- Lines 137-171 of `run_sweep_point`: the statistics computed from the
collected latency list, the elapsed wall time and the power stats. -/
def sweepMetrics (model : String) (chunk_size batch_size concurrency num_requests : ℕ)
    (latencies_ms : List ℚ) (elapsed : ℚ) (power_stats : Option ℚ) : ResultRecord :=
  let completed := latencies_ms.length
  let sortedLat := pySort latencies_ms
  let p50 := if completed ≠ 0 then pyIndex sortedLat (pyInt ((completed : ℚ) * (50/100)) - 1) else 0
  let p99 := if completed ≠ 0 then pyIndex sortedLat (pyInt ((completed : ℚ) * (99/100)) - 1) else 0
  let total_embeddings : ℚ := (completed : ℚ) * (batch_size : ℚ)
  let throughput := if 0 < elapsed then total_embeddings / elapsed else 0
  let throughput_per_user := if 0 < concurrency then throughput / (concurrency : ℚ) else 0
  let power_avg_w := power_stats.map (fun pm => pyRound 2 pm)
  let energy_joules := power_stats.map (fun pm => pyRound 2 (pm * elapsed))
  let emb_per_joule := match power_stats with
    | none => none
    | some pm =>
        let e := pyRound 2 (pm * elapsed)
        if 0 < e then some (pyRound 4 (total_embeddings / e)) else none
  { model := model
    chunk_size := chunk_size
    batch_size := batch_size
    concurrency := concurrency
    num_requests := num_requests
    completed_requests := completed
    elapsed_sec := pyRound 3 elapsed
    p50_latency_ms := pyRound 2 p50
    p99_latency_ms := pyRound 2 p99
    throughput_emb_per_sec := pyRound 2 throughput
    throughput_per_user := pyRound 2 throughput_per_user
    power_avg_w := power_avg_w
    energy_joules := energy_joules
    emb_per_joule := emb_per_joule }

/-- `run_sweep_point` as a whole (lines 102-171).  `latencyOf i` is the
round-trip latency request `i` would measure, `fails i` says whether
request `i` raises (non-success status / connection error / timeout).
`asyncio.gather` is used without `return_exceptions=True`, so the first
request failure propagates out of `run_sweep_point` (after the `finally`
block) and no record is produced: this is the `Except.error` branch. -/
def run_sweep_point (model : String) (chunk_size batch_size concurrency num_requests : ℕ)
    (latencyOf : ℕ → ℚ) (fails : ℕ → Bool) (elapsed : ℚ)
    (available : Bool) (polled : List ℚ) : Except Unit ResultRecord :=
  if (List.range num_requests).any fails then Except.error ()
  else Except.ok (sweepMetrics model chunk_size batch_size concurrency num_requests
    ((List.range num_requests).map latencyOf) elapsed (powerStats available polled))

/-! ## Concurrency-bounded dispatcher (benchmark_embedding.py lines 117-132)

One cooperative task per pre-generated batch runs `bounded_request`:
`async with sem: lat = await post_embeddings(...); latencies_ms.append(lat)`.
The semaphore and the per-task progress are modelled as a state, and the
event loop's interleaving as a nondeterministic step relation.  A task is
`pending` before it acquires the semaphore, `inflight` while it holds the
semaphore with its request issued, and `done b` after the `async with`
block exits (releasing the semaphore), where `b` records whether
`post_embeddings` raised.  `fails i` is the environment's choice of
whether request `i` fails. -/

inductive TaskState where
  | pending : TaskState
  | inflight : TaskState
  | done : Bool → TaskState
deriving DecidableEq

/-- True once the task's `async with sem` block has exited. -/
def TaskState.isDone : TaskState → Bool
  | .pending => false
  | .inflight => false
  | .done _ => true

structure DispatchState where
  sem : ℕ
  tasks : List TaskState
deriving DecidableEq

/-- One scheduling step of the event loop: either a pending task acquires
the semaphore (possible only when a permit is free) and issues its
request, or an in-flight task's request finishes (successfully or not)
and the `async with` block releases the semaphore unconditionally. -/
inductive DispatchStep (fails : ℕ → Bool) : DispatchState → DispatchState → Prop
  | acquire (s : DispatchState) (i : ℕ) :
      s.tasks.get? i = some TaskState.pending → 0 < s.sem →
      DispatchStep fails s ⟨s.sem - 1, s.tasks.set i TaskState.inflight⟩
  | finish (s : DispatchState) (i : ℕ) :
      s.tasks.get? i = some TaskState.inflight →
      DispatchStep fails s ⟨s.sem + 1, s.tasks.set i (TaskState.done (fails i))⟩

/-- The state of `run_sweep_point` right after `asyncio.Semaphore(concurrency)`
is created and the `bounded_request` tasks are spawned by `asyncio.gather`. -/
def initState (concurrency num_requests : ℕ) : DispatchState :=
  ⟨concurrency, List.replicate num_requests TaskState.pending⟩

/-- States the event loop can reach while `await asyncio.gather(...)` runs. -/
def Reachable (fails : ℕ → Bool) (concurrency num_requests : ℕ) (s : DispatchState) : Prop :=
  Relation.ReflTransGen (DispatchStep fails) (initState concurrency num_requests) s

/-- True while the task holds a semaphore permit with its request issued. -/
def TaskState.isInflight : TaskState → Bool
  | .pending => false
  | .inflight => true
  | .done _ => false

/-- Number of requests currently in flight (holding a semaphore permit). -/
def inflightCount (s : DispatchState) : ℕ :=
  s.tasks.countP TaskState.isInflight

/-- Number of tasks whose `async with` block has exited. -/
def doneCount (s : DispatchState) : ℕ :=
  s.tasks.countP TaskState.isDone

/-- The condition under which `await asyncio.gather(...)` (with its default
`return_exceptions=False`) resumes `run_sweep_point`: either every task has
finished, or some task has raised — in the latter case the first exception
is propagated immediately, without waiting for the remaining tasks. -/
def gatherDone (s : DispatchState) : Prop :=
  (∀ t ∈ s.tasks, t.isDone = true) ∨ TaskState.done true ∈ s.tasks

/-- Every task has finished (completed or failed). -/
def allFinished (s : DispatchState) : Prop :=
  ∀ t ∈ s.tasks, t.isDone = true

/-! ## Result aggregation (process_results.py)

A persisted JSON record is an insertion-ordered dictionary, modelled as
an association list.  JSON values occurring in these records are numbers,
strings or `null`. -/

inductive JVal where
  | num : ℚ → JVal
  | str : String → JVal
  | null : JVal
deriving DecidableEq

/-- Numeric value of a JSON value; the aggregator only ever does
arithmetic on fields that hold numbers in well-formed records. -/
def jNum : JVal → ℚ
  | .num q => q
  | _ => 0

/-- String value of a JSON value. -/
def jStr : JVal → String
  | .str s => s
  | _ => ""

/-- Python truthiness of a JSON value (`if batch_size:`). -/
def jTruthy : JVal → Bool
  | .num q => decide (q ≠ 0)
  | .str s => decide (s ≠ "")
  | .null => false

/-- Python `data[k] = v` on an insertion-ordered dict: replaces the value
in place when the key is present, appends the pair otherwise. -/
def dictSet (d : List (String × JVal)) (k : String) (v : JVal) : List (String × JVal) :=
  if (d.lookup k).isSome then d.map (fun p => if p.1 = k then (k, v) else p)
  else d ++ [(k, v)]

/-- Python `data.get(k, default)`. -/
def dictGetD (d : List (String × JVal)) (k : String) (v : JVal) : JVal :=
  (d.lookup k).getD v

/-- Serialisation of a ResultRecord to the persisted JSON object, in the
key order of the dict literal at benchmark_embedding.py lines 156-171. -/
def ResultRecord.toJson (r : ResultRecord) : List (String × JVal) :=
  [("model", JVal.str r.model),
   ("chunk_size", JVal.num r.chunk_size),
   ("batch_size", JVal.num r.batch_size),
   ("concurrency", JVal.num r.concurrency),
   ("num_requests", JVal.num r.num_requests),
   ("completed_requests", JVal.num r.completed_requests),
   ("elapsed_sec", JVal.num r.elapsed_sec),
   ("p50_latency_ms", JVal.num r.p50_latency_ms),
   ("p99_latency_ms", JVal.num r.p99_latency_ms),
   ("throughput_emb_per_sec", JVal.num r.throughput_emb_per_sec),
   ("throughput_per_user", JVal.num r.throughput_per_user),
   ("power_avg_w", (r.power_avg_w.map JVal.num).getD JVal.null),
   ("energy_joules", (r.energy_joules.map JVal.num).getD JVal.null),
   ("emb_per_joule", (r.emb_per_joule.map JVal.num).getD JVal.null)]

/-- Per-file body of `load_results` (process_results.py lines 38-42):
tag the record with the hardware label and derive `latency_per_text_ms`.
`hardware` is the override or the label inferred from the directory name. -/
def load_record (hardware : String) (data : List (String × JVal)) : List (String × JVal) :=
  let data1 := dictSet data "hardware" (JVal.str hardware)
  let batch_size := dictGetD data1 "batch_size" (JVal.num 1)
  let p99 := dictGetD data1 "p99_latency_ms" (JVal.num 0)
  let lpt := if jTruthy batch_size then JVal.num (pyRound 3 (jNum p99 / jNum batch_size))
             else JVal.num 0
  dictSet data1 "latency_per_text_ms" lpt

/-- The sort key of process_results.py lines 48-55, as a lexicographically
ordered tuple `(model, hardware, chunk_size, batch_size, concurrency)`. -/
def sort_key (r : List (String × JVal)) :
    Lex (String × Lex (String × Lex (ℚ × Lex (ℚ × ℚ)))) :=
  toLex (jStr (dictGetD r "model" (JVal.str "")),
    toLex (jStr (dictGetD r "hardware" (JVal.str "")),
      toLex (jNum (dictGetD r "chunk_size" (JVal.num 0)),
        toLex (jNum (dictGetD r "batch_size" (JVal.num 0)),
          jNum (dictGetD r "concurrency" (JVal.num 0))))))

/-- `records.sort(key=sort_key)` (process_results.py line 126): a stable
ascending sort comparing sort keys. -/
def sortRecords (rs : List (List (String × JVal))) : List (List (String × JVal)) :=
  rs.mergeSort (fun a b => decide (sort_key a ≤ sort_key b))

/-! ## Basic properties of the numeric helpers -/

theorem roundHalfEven_intCast (z : ℤ) : roundHalfEven (z : ℚ) = z := by
  unfold roundHalfEven
  rw [Int.floor_intCast]
  simp

theorem roundHalfEven_eq_floor_or (q : ℚ) :
    roundHalfEven q = ⌊q⌋ ∨ roundHalfEven q = ⌊q⌋ + 1 := by
  unfold roundHalfEven
  split_ifs <;> simp

theorem abs_roundHalfEven_sub_le (q : ℚ) : |(roundHalfEven q : ℚ) - q| ≤ 1/2 := by
  have hfl : (⌊q⌋ : ℚ) ≤ q := Int.floor_le q
  have hfu : q < (⌊q⌋ : ℚ) + 1 := Int.lt_floor_add_one q
  unfold roundHalfEven
  split_ifs with h1 h2 h3
  · rw [abs_sub_comm, abs_of_nonneg (by linarith)]; linarith
  · push_cast
    rw [abs_of_nonneg (by linarith)]; linarith
  · rw [abs_sub_comm, abs_of_nonneg (by linarith)]; linarith
  · push_cast
    rw [abs_of_nonneg (by linarith)]; linarith

theorem roundHalfEven_mono {x y : ℚ} (h : x ≤ y) :
    roundHalfEven x ≤ roundHalfEven y := by
  have hxy : ⌊x⌋ ≤ ⌊y⌋ := Int.floor_le_floor h
  rcases lt_or_eq_of_le hxy with hlt | heq
  · rcases roundHalfEven_eq_floor_or x with hx | hx <;>
      rcases roundHalfEven_eq_floor_or y with hy | hy <;> omega
  · have hflx : (⌊x⌋ : ℚ) ≤ x := Int.floor_le x
    have hsub : x - ⌊x⌋ ≤ y - ⌊y⌋ := by
      rw [← heq]; linarith
    unfold roundHalfEven
    rw [← heq]
    split_ifs with h1 h2 h3 h4 h5 h6 h7 h8 h9 h10 h11 <;> try omega
    all_goals linarith

theorem pyRound_mono (n : ℕ) {x y : ℚ} (h : x ≤ y) : pyRound n x ≤ pyRound n y := by
  unfold pyRound
  have hp : (0:ℚ) < 10 ^ n := by positivity
  have : roundHalfEven (x * 10 ^ n) ≤ roundHalfEven (y * 10 ^ n) :=
    roundHalfEven_mono (by nlinarith)
  have : ((roundHalfEven (x * 10 ^ n) : ℚ)) ≤ ((roundHalfEven (y * 10 ^ n) : ℚ)) := by
    exact_mod_cast this
  exact div_le_div_of_nonneg_right this hp.le |>.trans_eq rfl

theorem pyRound_zero (n : ℕ) : pyRound n 0 = 0 := by
  unfold pyRound
  rw [zero_mul]
  rw [show ((0:ℚ)) = ((0 : ℤ) : ℚ) by norm_num, roundHalfEven_intCast]
  norm_num

theorem pyRound_eq_self {n : ℕ} {q : ℚ} (z : ℤ) (h : q * 10 ^ n = (z : ℚ)) :
    pyRound n q = q := by
  unfold pyRound
  rw [h, roundHalfEven_intCast, ← h]
  have hp : (10:ℚ) ^ n ≠ 0 := by positivity
  field_simp

theorem abs_pyRound_sub_le (n : ℕ) (q : ℚ) :
    |pyRound n q - q| ≤ 1 / (2 * 10 ^ n) := by
  unfold pyRound
  have hp : (0:ℚ) < 10 ^ n := by positivity
  have hb := abs_roundHalfEven_sub_le (q * 10 ^ n)
  have hrw : (roundHalfEven (q * 10 ^ n) : ℚ) / 10 ^ n - q
      = ((roundHalfEven (q * 10 ^ n) : ℚ) - q * 10 ^ n) / 10 ^ n := by
    field_simp
    ring
  rw [hrw, abs_div, abs_of_pos hp, div_le_div_iff₀ hp (by positivity)]
  calc |(roundHalfEven (q * 10 ^ n) : ℚ) - q * 10 ^ n| * (2 * 10 ^ n)
      ≤ (1/2) * (2 * 10 ^ n) := by
        apply mul_le_mul_of_nonneg_right hb (by positivity)
    _ = 1 * 10 ^ n := by ring

theorem pyInt_of_nonneg {q : ℚ} (h : 0 ≤ q) : pyInt q = ⌊q⌋ := by
  unfold pyInt
  rw [if_pos h]

theorem mean_replicate {n : ℕ} (P : ℚ) (h : 1 ≤ n) :
    mean (List.replicate n P) = P := by
  unfold mean
  rw [List.sum_replicate, List.length_replicate]
  have hn : (n : ℚ) ≠ 0 := by exact_mod_cast Nat.one_le_iff_ne_zero.mp h
  rw [nsmul_eq_mul, mul_comm, mul_div_assoc, div_self hn, mul_one]

/-! ## Properties of the sort helper -/

theorem pySort_sorted (l : List ℚ) : (pySort l).Sorted (· ≤ ·) :=
  List.sorted_mergeSort' l

theorem pySort_perm (l : List ℚ) : (pySort l).Perm l :=
  List.mergeSort_perm l _

theorem pySort_length (l : List ℚ) : (pySort l).length = l.length :=
  (pySort_perm l).length_eq

/-- Clamping an index into the range `[0, len - 1]`, the corrected
indexing the spec prescribes for the percentile computation. -/
def clampIndex (i : ℤ) (len : ℕ) : ℕ :=
  (min i ((len : ℤ) - 1)).toNat

/-- On a nonempty list, the pythonic percentile index
`l[int(len(l) * q) - 1]` — negative-index wraparound included — selects
exactly the element at the index `⌊len · q⌋ - 1` clamped to
`[0, len - 1]`, for any percentile level `1/2 ≤ q < 1`. -/
theorem pyIndex_percentile (q : ℚ) (hq1 : 1/2 ≤ q) (hq2 : q < 1)
    (l : List ℚ) (hl : 1 ≤ l.length) :
    pyIndex l (pyInt ((l.length : ℚ) * q) - 1)
      = l.getD (clampIndex (⌊(l.length : ℚ) * q⌋ - 1) l.length) 0 := by
  have hq0 : (0:ℚ) ≤ q := le_trans (by norm_num) hq1
  have hc0 : (0:ℚ) < (l.length : ℚ) := by exact_mod_cast hl
  have hprod : (0:ℚ) ≤ (l.length : ℚ) * q := mul_nonneg hc0.le hq0
  rw [pyInt_of_nonneg hprod]
  have hkc : ⌊(l.length : ℚ) * q⌋ < (l.length : ℤ) := by
    apply Int.floor_lt.mpr
    push_cast
    exact mul_lt_of_lt_one_right hc0 hq2
  rcases Nat.lt_or_ge l.length 2 with h1 | h2
  · -- completed = 1: index is -1, Python wraps to the last (sole) element
    have hc1 : l.length = 1 := by omega
    have hfl : ⌊(l.length : ℚ) * q⌋ = 0 := by
      rw [hc1]
      push_cast
      rw [one_mul]
      exact Int.floor_eq_zero_iff.mpr ⟨hq0, hq2⟩
    rw [hfl]
    unfold pyIndex clampIndex
    rw [hc1]
    rw [if_pos (show (0:ℤ) - 1 < 0 by omega)]
    congr 1
  · -- completed ≥ 2: the index ⌊completed·q⌋ - 1 is already in range
    have hk1 : 1 ≤ ⌊(l.length : ℚ) * q⌋ := by
      apply Int.le_floor.mpr
      push_cast
      calc (1:ℚ) = 2 * (1/2) := by norm_num
        _ ≤ (l.length : ℚ) * q := by
            apply mul_le_mul _ hq1 (by norm_num) hc0.le
            exact_mod_cast h2
    unfold pyIndex clampIndex
    rw [if_neg (by omega)]
    congr 1
    omega

/-- Reading a sorted list at a smaller in-range index gives a smaller
value. -/
theorem sorted_getD_mono {l : List ℚ} (hs : l.Sorted (· ≤ ·)) {i j : ℕ}
    (hij : i ≤ j) (hj : j < l.length) : l.getD i 0 ≤ l.getD j 0 := by
  have hi : i < l.length := lt_of_le_of_lt hij hj
  rw [List.getD_eq_getElem l 0 hi, List.getD_eq_getElem l 0 hj]
  have h := hs.rel_get_of_le (show (⟨i, hi⟩ : Fin l.length) ≤ ⟨j, hj⟩ from hij)
  simpa [List.get_eq_getElem] using h

/-! ## Dispatcher invariant -/

theorem countP_set_aux {α : Type} (p : α → Bool) (l : List α) (i : ℕ) (a b : α)
    (h : l.get? i = some a) :
    (l.set i b).countP p + (if p a then 1 else 0)
      = l.countP p + (if p b then 1 else 0) := by
  induction l generalizing i with
  | nil => simp at h
  | cons x xs ih =>
    cases i with
    | zero =>
      rw [List.get?_cons_zero] at h
      injection h with h
      subst h
      simp only [List.set_cons_zero, List.countP_cons]
      cases hpb : p b <;> cases hpx : p x <;> simp [hpb, hpx]
    | succ n =>
      rw [List.get?_cons_succ] at h
      simp only [List.set_cons_succ, List.countP_cons]
      have := ih n h
      omega

/-- Each event-loop step preserves the dispatcher invariant: free permits
plus in-flight requests equal the semaphore capacity, and the task count
never changes.  The `finish` case releases the permit whether or not the
request failed. -/
theorem step_preserves_invariant {fails : ℕ → Bool} {conc N : ℕ}
    {s t : DispatchState} (hstep : DispatchStep fails s t)
    (h1 : s.sem + inflightCount s = conc) (h2 : s.tasks.length = N) :
    t.sem + inflightCount t = conc ∧ t.tasks.length = N := by
  cases hstep with
  | acquire i hget hsem =>
    have hcnt := countP_set_aux TaskState.isInflight s.tasks i _ TaskState.inflight hget
    simp [TaskState.isInflight] at hcnt
    unfold inflightCount at h1 ⊢
    refine ⟨by simp only []; omega, ?_⟩
    simpa [List.length_set] using h2
  | finish i hget =>
    have hcnt := countP_set_aux TaskState.isInflight s.tasks i _
      (TaskState.done (fails i)) hget
    simp [TaskState.isInflight] at hcnt
    unfold inflightCount at h1 ⊢
    refine ⟨by simp only []; omega, ?_⟩
    simpa [List.length_set] using h2

/-- The dispatcher invariant holds in every reachable state. -/
theorem reachable_invariant (fails : ℕ → Bool) (conc N : ℕ) (s : DispatchState)
    (h : Reachable fails conc N s) :
    s.sem + inflightCount s = conc ∧ s.tasks.length = N := by
  unfold Reachable at h
  induction h with
  | refl =>
    constructor
    · have hz : inflightCount (initState conc N) = 0 := by
        simp [inflightCount, initState, List.countP_eq_zero, TaskState.isInflight]
      simp [initState] at hz ⊢
      omega
    · simp [initState]
  | tail _ hstep ih =>
    exact step_preserves_invariant hstep ih.1 ih.2

/-! ## Field views of the sweep-point metrics -/

theorem sweepMetrics_completed (model : String) (c b k n : ℕ) (lat : List ℚ)
    (e : ℚ) (ps : Option ℚ) :
    (sweepMetrics model c b k n lat e ps).completed_requests = lat.length := rfl

theorem sweepMetrics_p50 (model : String) (c b k n : ℕ) (lat : List ℚ)
    (e : ℚ) (ps : Option ℚ) :
    (sweepMetrics model c b k n lat e ps).p50_latency_ms
      = pyRound 2 (if lat.length ≠ 0
          then pyIndex (pySort lat) (pyInt ((lat.length : ℚ) * (50/100)) - 1) else 0) := rfl

theorem sweepMetrics_p99 (model : String) (c b k n : ℕ) (lat : List ℚ)
    (e : ℚ) (ps : Option ℚ) :
    (sweepMetrics model c b k n lat e ps).p99_latency_ms
      = pyRound 2 (if lat.length ≠ 0
          then pyIndex (pySort lat) (pyInt ((lat.length : ℚ) * (99/100)) - 1) else 0) := rfl

theorem sweepMetrics_throughput (model : String) (c b k n : ℕ) (lat : List ℚ)
    (e : ℚ) (ps : Option ℚ) :
    (sweepMetrics model c b k n lat e ps).throughput_emb_per_sec
      = pyRound 2 (if 0 < e then (lat.length : ℚ) * (b : ℚ) / e else 0) := rfl

theorem sweepMetrics_throughput_per_user (model : String) (c b k n : ℕ) (lat : List ℚ)
    (e : ℚ) (ps : Option ℚ) :
    (sweepMetrics model c b k n lat e ps).throughput_per_user
      = pyRound 2 (if 0 < k
          then (if 0 < e then (lat.length : ℚ) * (b : ℚ) / e else 0) / (k : ℚ)
          else 0) := rfl

theorem sweepMetrics_power (model : String) (c b k n : ℕ) (lat : List ℚ)
    (e : ℚ) (ps : Option ℚ) :
    (sweepMetrics model c b k n lat e ps).power_avg_w = ps.map (fun pm => pyRound 2 pm)
      ∧ (sweepMetrics model c b k n lat e ps).energy_joules
          = ps.map (fun pm => pyRound 2 (pm * e))
      ∧ (sweepMetrics model c b k n lat e ps).emb_per_joule
          = match ps with
            | none => none
            | some pm =>
                if 0 < pyRound 2 (pm * e)
                then some (pyRound 4 ((lat.length : ℚ) * (b : ℚ) / pyRound 2 (pm * e)))
                else none := ⟨rfl, rfl, rfl⟩

/-! ## Claims -/

/-- C1: for every sweep-point evaluation with `completed ≥ 1`, the stored
`p50_latency_ms` is the element of the ascending-sorted completed
latencies at index `⌊0.50·completed⌋ - 1` clamped to `[0, completed-1]`
(rounded to 2 decimals as stored), `p99_latency_ms` likewise at `0.99`;
in particular at `completed = 1` both percentiles equal the single
collected latency — the pythonic `-1` index never yields a value other
than the clamped one. -/
theorem percentile_indices_clamped (model : String) (c b k n : ℕ)
    (lat : List ℚ) (e : ℚ) (ps : Option ℚ) (h : 1 ≤ lat.length) :
    (sweepMetrics model c b k n lat e ps).p50_latency_ms
        = pyRound 2 ((pySort lat).getD
            (clampIndex (⌊(lat.length : ℚ) * (50/100)⌋ - 1) lat.length) 0)
      ∧ (sweepMetrics model c b k n lat e ps).p99_latency_ms
        = pyRound 2 ((pySort lat).getD
            (clampIndex (⌊(lat.length : ℚ) * (99/100)⌋ - 1) lat.length) 0)
      ∧ (∀ x : ℚ, lat = [x] →
          (sweepMetrics model c b k n lat e ps).p50_latency_ms = pyRound 2 x
          ∧ (sweepMetrics model c b k n lat e ps).p99_latency_ms = pyRound 2 x) := by
  have hps : (pySort lat).length = lat.length := pySort_length lat
  have h50 := pyIndex_percentile (50/100) (by norm_num) (by norm_num) (pySort lat)
    (by rw [hps]; exact h)
  have h99 := pyIndex_percentile (99/100) (by norm_num) (by norm_num) (pySort lat)
    (by rw [hps]; exact h)
  rw [hps] at h50 h99
  have H50 : (sweepMetrics model c b k n lat e ps).p50_latency_ms
      = pyRound 2 ((pySort lat).getD
          (clampIndex (⌊(lat.length : ℚ) * (50/100)⌋ - 1) lat.length) 0) := by
    rw [sweepMetrics_p50, if_pos (by omega), h50]
  have H99 : (sweepMetrics model c b k n lat e ps).p99_latency_ms
      = pyRound 2 ((pySort lat).getD
          (clampIndex (⌊(lat.length : ℚ) * (99/100)⌋ - 1) lat.length) 0) := by
    rw [sweepMetrics_p99, if_pos (by omega), h99]
  refine ⟨H50, H99, ?_⟩
  intro x hx
  subst hx
  have hsx : pySort [x] = [x] := List.mergeSort_singleton x
  have hl1 : ([x] : List ℚ).length = 1 := rfl
  have hf50 : ⌊((([x] : List ℚ).length : ℕ) : ℚ) * (50/100)⌋ = 0 := by
    rw [hl1]
    rw [Int.floor_eq_zero_iff]
    constructor <;> norm_num
  have hf99 : ⌊((([x] : List ℚ).length : ℕ) : ℚ) * (99/100)⌋ = 0 := by
    rw [hl1]
    rw [Int.floor_eq_zero_iff]
    constructor <;> norm_num
  constructor
  · rw [H50, hf50, hsx, hl1]
    congr 1
  · rw [H99, hf99, hsx, hl1]
    congr 1

/-- Witness for C1 at the concrete input `latencies = [50]`. -/
theorem percentile_indices_clamped_witness :
    1 ≤ ([(50:ℚ)] : List ℚ).length
    ∧ (sweepMetrics "intfloat/e5-base-v2" 128 4 2 1 [(50:ℚ)] 1 none).p50_latency_ms
        = pyRound 2 ((pySort [(50:ℚ)]).getD
            (clampIndex (⌊((([(50:ℚ)] : List ℚ).length) : ℚ) * (50/100)⌋ - 1)
              ([(50:ℚ)] : List ℚ).length) 0)
    ∧ (sweepMetrics "intfloat/e5-base-v2" 128 4 2 1 [(50:ℚ)] 1 none).p99_latency_ms
        = pyRound 2 ((pySort [(50:ℚ)]).getD
            (clampIndex (⌊((([(50:ℚ)] : List ℚ).length) : ℚ) * (99/100)⌋ - 1)
              ([(50:ℚ)] : List ℚ).length) 0) :=
  ⟨by norm_num,
   (percentile_indices_clamped "intfloat/e5-base-v2" 128 4 2 1 [(50:ℚ)] 1 none
     (by norm_num)).1,
   (percentile_indices_clamped "intfloat/e5-base-v2" 128 4 2 1 [(50:ℚ)] 1 none
     (by norm_num)).2.1⟩

/-- C9: for every sweep-point evaluation the stored `p50_latency_ms`
never exceeds the stored `p99_latency_ms`: the p50 index never exceeds
the p99 index into the same ascending-sorted list, and the 2-decimal
rounding preserves the ordering (both percentiles are `0` when
`completed = 0`). -/
theorem p50_le_p99 (model : String) (c b k n : ℕ) (lat : List ℚ)
    (e : ℚ) (ps : Option ℚ) :
    (sweepMetrics model c b k n lat e ps).p50_latency_ms
      ≤ (sweepMetrics model c b k n lat e ps).p99_latency_ms := by
  rcases Nat.eq_zero_or_pos lat.length with h0 | hpos
  · rw [sweepMetrics_p50, sweepMetrics_p99, if_neg (by omega), if_neg (by omega)]
  · have hps : (pySort lat).length = lat.length := pySort_length lat
    have h50 := pyIndex_percentile (50/100) (by norm_num) (by norm_num) (pySort lat)
      (by omega)
    have h99 := pyIndex_percentile (99/100) (by norm_num) (by norm_num) (pySort lat)
      (by omega)
    rw [hps] at h50 h99
    rw [sweepMetrics_p50, sweepMetrics_p99, if_pos (by omega), if_pos (by omega)]
    apply pyRound_mono
    rw [h50, h99]
    have hfl : ⌊(lat.length : ℚ) * (50/100)⌋ ≤ ⌊(lat.length : ℚ) * (99/100)⌋ := by
      apply Int.floor_le_floor
      apply mul_le_mul_of_nonneg_left (by norm_num) (by positivity)
    apply sorted_getD_mono (pySort_sorted lat)
    · unfold clampIndex
      omega
    · unfold clampIndex
      have hkc : ⌊(lat.length : ℚ) * (99/100)⌋ - 1 ≤ (lat.length : ℤ) - 1 := by
        have : (0:ℚ) < (lat.length : ℚ) := by exact_mod_cast hpos
        have := Int.floor_lt.mpr (show (lat.length : ℚ) * (99/100) < ((lat.length : ℤ) : ℚ) by
          push_cast
          nlinarith)
        omega
      rw [hps]
      omega

/-- C3: throughput is `completed · batch_size / elapsed` (2-decimal
rounded as stored) and `0` when `elapsed ≤ 0`; per-user throughput is
`throughput / concurrency` and `0` when `concurrency = 0`; both
percentiles are `0` when no request completed; every division is
guarded. -/
theorem derived_metrics_guarded (model : String) (c b k n : ℕ) (lat : List ℚ)
    (e : ℚ) (ps : Option ℚ) :
    (0 < e → (sweepMetrics model c b k n lat e ps).throughput_emb_per_sec
        = pyRound 2 ((lat.length : ℚ) * (b : ℚ) / e))
    ∧ (e ≤ 0 → (sweepMetrics model c b k n lat e ps).throughput_emb_per_sec = 0)
    ∧ (0 < k → (sweepMetrics model c b k n lat e ps).throughput_per_user
        = pyRound 2 ((if 0 < e then (lat.length : ℚ) * (b : ℚ) / e else 0) / (k : ℚ)))
    ∧ (k = 0 → (sweepMetrics model c b k n lat e ps).throughput_per_user = 0)
    ∧ (lat.length = 0 → (sweepMetrics model c b k n lat e ps).p50_latency_ms = 0
        ∧ (sweepMetrics model c b k n lat e ps).p99_latency_ms = 0) := by
  refine ⟨?_, ?_, ?_, ?_, ?_⟩
  · intro he
    rw [sweepMetrics_throughput, if_pos he]
  · intro he
    rw [sweepMetrics_throughput, if_neg (not_lt.mpr he), pyRound_zero]
  · intro hk
    rw [sweepMetrics_throughput_per_user, if_pos hk]
  · intro hk
    rw [sweepMetrics_throughput_per_user, if_neg (by omega), pyRound_zero]
  · intro h0
    constructor
    · rw [sweepMetrics_p50, if_neg (by omega), pyRound_zero]
    · rw [sweepMetrics_p99, if_neg (by omega), pyRound_zero]

/-- Witness for C3 at concrete inputs exercising both the positive and
the degenerate guards. -/
theorem derived_metrics_guarded_witness :
    ((0:ℚ) < 1
      ∧ (sweepMetrics "intfloat/e5-base-v2" 128 4 2 1 [(50:ℚ)] 1 none).throughput_emb_per_sec
          = pyRound 2 ((([(50:ℚ)] : List ℚ).length : ℚ) * ((4:ℕ) : ℚ) / 1))
    ∧ ((sweepMetrics "intfloat/e5-base-v2" 128 4 0 1 ([] : List ℚ) 0 none).throughput_per_user = 0)
    ∧ (([] : List ℚ).length = 0
      ∧ (sweepMetrics "intfloat/e5-base-v2" 128 4 0 1 ([] : List ℚ) 0 none).p50_latency_ms = 0
      ∧ (sweepMetrics "intfloat/e5-base-v2" 128 4 0 1 ([] : List ℚ) 0 none).p99_latency_ms = 0) :=
  ⟨⟨by norm_num,
    (derived_metrics_guarded "intfloat/e5-base-v2" 128 4 2 1 [(50:ℚ)] 1 none).1 (by norm_num)⟩,
   (derived_metrics_guarded "intfloat/e5-base-v2" 128 4 0 1 ([] : List ℚ) 0 none).2.2.2.1 rfl,
   ⟨rfl,
    ((derived_metrics_guarded "intfloat/e5-base-v2" 128 4 0 1 ([] : List ℚ) 0 none).2.2.2.2 rfl).1,
    ((derived_metrics_guarded "intfloat/e5-base-v2" 128 4 0 1 ([] : List ℚ) 0 none).2.2.2.2 rfl).2⟩⟩

theorem sweepMetrics_emb_some (model : String) (c b k n : ℕ) (lat : List ℚ)
    (e : ℚ) (pm : ℚ) :
    (sweepMetrics model c b k n lat e (some pm)).emb_per_joule
      = if 0 < pyRound 2 (pm * e)
        then some (pyRound 4 ((lat.length : ℚ) * (b : ℚ) / pyRound 2 (pm * e)))
        else none := rfl

/-! ## Evaluations of the power sampler -/

theorem powerStats_unavailable (polled : List ℚ) : powerStats false polled = none := rfl

theorem powerStats_no_samples : powerStats true [] = none := rfl

theorem powerStats_available (polled : List ℚ) (h : polled ≠ []) :
    powerStats true polled = some (mean polled) := by
  unfold powerStats PowerMonitor.mk0 PowerMonitor.start PowerMonitor.observe PowerMonitor.stop
  simp [h]

/-- C5: if NVML is unavailable at process start, or the sampler collected
no samples over the window, the record's `power_avg_w`, `energy_joules`
and `emb_per_joule` are all absent (`none`), never zero; and with NVML
unavailable the monitor's start and stop are harmless no-ops on the
monitor state. -/
theorem power_fields_absent (model : String) (c b k n : ℕ) (lat : List ℚ)
    (e : ℚ) (available : Bool) (polled : List ℚ) (m : PowerMonitor)
    (h : available = false ∨ polled = []) :
    (sweepMetrics model c b k n lat e (powerStats available polled)).power_avg_w = none
    ∧ (sweepMetrics model c b k n lat e (powerStats available polled)).energy_joules = none
    ∧ (sweepMetrics model c b k n lat e (powerStats available polled)).emb_per_joule = none
    ∧ (available = false → m.start available = m ∧ m.stop available = (m, none)) := by
  have hns : powerStats available polled = none := by
    rcases h with h | h
    · subst h
      exact powerStats_unavailable polled
    · subst h
      cases available with
      | false => exact powerStats_unavailable []
      | true => exact powerStats_no_samples
  rw [hns]
  refine ⟨rfl, rfl, rfl, ?_⟩
  intro ha
  subst ha
  exact ⟨rfl, rfl⟩

/-- Witness for C5 with NVML simulated absent. -/
theorem power_fields_absent_witness :
    (sweepMetrics "intfloat/e5-base-v2" 128 4 2 1 [(50:ℚ)] 1
        (powerStats false [(30:ℚ)])).power_avg_w = none
    ∧ (sweepMetrics "intfloat/e5-base-v2" 128 4 2 1 [(50:ℚ)] 1
        (powerStats false [(30:ℚ)])).energy_joules = none
    ∧ (sweepMetrics "intfloat/e5-base-v2" 128 4 2 1 [(50:ℚ)] 1
        (powerStats false [(30:ℚ)])).emb_per_joule = none
    ∧ PowerMonitor.mk0.start false = PowerMonitor.mk0
    ∧ PowerMonitor.mk0.stop false = (PowerMonitor.mk0, none) :=
  have H := power_fields_absent "intfloat/e5-base-v2" 128 4 2 1 [(50:ℚ)] 1 false
    [(30:ℚ)] PowerMonitor.mk0 (Or.inl rfl)
  ⟨H.1, H.2.1, H.2.2.1, (H.2.2.2 rfl).1, (H.2.2.2 rfl).2⟩

/-- C6: when a power mean `pm` is available, the stored energy is
`round(pm · elapsed, 2)`, the stored power is `round(pm, 2)`, efficiency
is `round(total_embeddings / energy, 4)` exactly when the stored energy
is positive and absent otherwise, the stored energy is within `1/200`
(the 2-decimal rounding tolerance) of `pm · elapsed`, and a constant
reading `P` over a nonempty window yields `pm = P`. -/
theorem energy_efficiency_formulas (model : String) (c b k n : ℕ) (lat : List ℚ)
    (e : ℚ) (available : Bool) (polled : List ℚ) (pm : ℚ)
    (h : powerStats available polled = some pm) :
    (sweepMetrics model c b k n lat e (powerStats available polled)).power_avg_w
        = some (pyRound 2 pm)
    ∧ (sweepMetrics model c b k n lat e (powerStats available polled)).energy_joules
        = some (pyRound 2 (pm * e))
    ∧ (0 < pyRound 2 (pm * e) →
        (sweepMetrics model c b k n lat e (powerStats available polled)).emb_per_joule
          = some (pyRound 4 ((lat.length : ℚ) * (b : ℚ) / pyRound 2 (pm * e))))
    ∧ (¬ 0 < pyRound 2 (pm * e) →
        (sweepMetrics model c b k n lat e (powerStats available polled)).emb_per_joule = none)
    ∧ |pyRound 2 (pm * e) - pm * e| ≤ 1/200
    ∧ (∀ (np : ℕ) (P : ℚ), polled = List.replicate np P → 1 ≤ np → pm = P) := by
  rw [h]
  refine ⟨rfl, rfl, ?_, ?_, ?_, ?_⟩
  · intro hpos
    rw [sweepMetrics_emb_some, if_pos hpos]
  · intro hneg
    rw [sweepMetrics_emb_some, if_neg hneg]
  · rw [show (1:ℚ)/200 = 1/(2 * 10 ^ 2) by norm_num]
    exact abs_pyRound_sub_le 2 (pm * e)
  · intro np P hpol hnp
    subst hpol
    cases available with
    | false =>
      rw [powerStats_unavailable] at h
      exact absurd h (by simp)
    | true =>
      have hne : List.replicate np P ≠ [] := by
        intro hc
        have := congrArg List.length hc
        simp at this
        omega
      rw [powerStats_available _ hne, mean_replicate P hnp] at h
      injection h with h
      exact h.symm

/-- Witness for C6 with a constant 30 W reading over a 2-second window. -/
theorem energy_efficiency_formulas_witness :
    powerStats true [(30:ℚ), 30] = some 30
    ∧ (sweepMetrics "intfloat/e5-base-v2" 128 4 2 1 [(50:ℚ)] 2
        (powerStats true [(30:ℚ), 30])).energy_joules = some (pyRound 2 ((30:ℚ) * 2))
    ∧ |pyRound 2 ((30:ℚ) * 2) - (30:ℚ) * 2| ≤ 1/200 := by
  have hps : powerStats true [(30:ℚ), 30] = some 30 := by
    rw [powerStats_available [(30:ℚ), 30] (by simp)]
    rw [show mean [(30:ℚ), 30] = 30 by norm_num [mean]]
  have H := energy_efficiency_formulas "intfloat/e5-base-v2" 128 4 2 1 [(50:ℚ)] 2
    true [(30:ℚ), 30] 30 hps
  exact ⟨hps, H.2.1, H.2.2.2.2.1⟩

/-- C2 (amended): for every `concurrency ≥ 1` and any number of tasks,
in every reachable dispatcher state at most `concurrency` requests are in
flight; free permits plus in-flight requests always equal the capacity
(the permit is released unconditionally, on success or failure); and when
no task has failed, `asyncio.gather` resumes the dispatcher only once all
`N` tasks have finished.  (As frozen, the claim also asserted the
dispatcher returns only once all tasks completed or failed even in the
presence of failures; the counterexample theorem refutes that.) -/
theorem dispatcher_concurrency_bound (fails : ℕ → Bool) (conc N : ℕ)
    (_h : 1 ≤ conc) (s : DispatchState) (hs : Reachable fails conc N s) :
    inflightCount s ≤ conc
    ∧ s.sem + inflightCount s = conc
    ∧ s.tasks.length = N
    ∧ (gatherDone s → TaskState.done true ∉ s.tasks → doneCount s = N) := by
  obtain ⟨h1, h2⟩ := reachable_invariant fails conc N s hs
  refine ⟨by omega, h1, h2, ?_⟩
  intro hg hnf
  have hall : ∀ t ∈ s.tasks, t.isDone = true := by
    rcases hg with hall | hmem
    · exact hall
    · exact absurd hmem hnf
  unfold doneCount
  rw [← h2]
  exact List.countP_eq_length.mpr hall

/-- Witness for C2 at `concurrency = 1`, `N = 1`, in the initial state. -/
theorem dispatcher_concurrency_bound_witness :
    1 ≤ 1
    ∧ inflightCount (initState 1 1) ≤ 1
    ∧ (initState 1 1).sem + inflightCount (initState 1 1) = 1 :=
  have H := dispatcher_concurrency_bound (fun _ => false) 1 1 (le_refl 1)
    (initState 1 1) Relation.ReflTransGen.refl
  ⟨le_refl 1, H.1, H.2.1⟩

/-- C2 counterexample: with `concurrency = 1`, two tasks, and task 0
failing, the dispatcher reaches a state in which `asyncio.gather` resumes
(propagating the failure) while task 1 is still pending — refuting
"the dispatcher returns only once all N tasks have completed or failed". -/
theorem dispatcher_early_return_counterexample :
    Reachable (fun i => decide (i = 0)) 1 2
        ⟨1, [TaskState.done true, TaskState.pending]⟩
    ∧ gatherDone ⟨1, [TaskState.done true, TaskState.pending]⟩
    ∧ ¬ allFinished ⟨1, [TaskState.done true, TaskState.pending]⟩ := by
  refine ⟨?_, ?_, ?_⟩
  · show Relation.ReflTransGen (DispatchStep (fun i => decide (i = 0))) (initState 1 2)
      ⟨1, [TaskState.done true, TaskState.pending]⟩
    exact Relation.ReflTransGen.head
      (DispatchStep.acquire (initState 1 2) 0 rfl (by decide))
      (Relation.ReflTransGen.head
        (DispatchStep.finish ⟨0, [TaskState.inflight, TaskState.pending]⟩ 0 rfl)
        Relation.ReflTransGen.refl)
  · exact Or.inr (List.mem_cons_self _ _)
  · intro hall
    have := hall TaskState.pending (by simp)
    simp [TaskState.isDone] at this

/-- C4 (code-bug exhibit): `asyncio.gather` is called without
`return_exceptions=True`, so a single failing request makes
`run_sweep_point` raise and the sweep point produces no record at all
(first conjunct) — the claim's "an individual request failure does not
abort the sweep point" fails on the code; when no request fails,
`completed_requests` does equal `num_requests` (second conjunct, at
`num_requests = 2`). -/
theorem request_failure_aborts_sweep_point :
    run_sweep_point "intfloat/e5-base-v2" 128 4 2 1 (fun _ => 50) (fun _ => true) 1 false []
      = Except.error ()
    ∧ (run_sweep_point "intfloat/e5-base-v2" 128 4 2 2 (fun _ => 50) (fun _ => false) 1
        false []).map (fun r => r.completed_requests) = Except.ok 2 :=
  ⟨rfl, rfl⟩

/-! ## Dictionary lemmas for the aggregator -/

theorem lookup_cons_pair (kk k' : String) (v : JVal) (es : List (String × JVal)) :
    ((kk, v) :: es).lookup k' = if k' = kk then some v else es.lookup k' := by
  by_cases h : k' = kk
  · simp [List.lookup, h]
  · have hb : (k' == kk) = false := beq_eq_false_iff_ne.mpr h
    simp [List.lookup, hb, h]

theorem lookup_append_of_none (d e : List (String × JVal)) (k : String)
    (h : d.lookup k = none) : (d ++ e).lookup k = e.lookup k := by
  induction d with
  | nil => rfl
  | cons a ds ih =>
    rcases a with ⟨ak, av⟩
    rw [lookup_cons_pair] at h
    by_cases hk : k = ak
    · rw [if_pos hk] at h
      exact absurd h (by simp)
    · rw [if_neg hk] at h
      rw [List.cons_append, lookup_cons_pair, if_neg hk]
      exact ih h

theorem lookup_append_of_some (d e : List (String × JVal)) (k : String) (v : JVal)
    (h : d.lookup k = some v) : (d ++ e).lookup k = some v := by
  induction d with
  | nil => simp [List.lookup] at h
  | cons a ds ih =>
    rcases a with ⟨ak, av⟩
    rw [lookup_cons_pair] at h
    rw [List.cons_append, lookup_cons_pair]
    by_cases hk : k = ak
    · rw [if_pos hk] at h
      rw [if_pos hk]
      exact h
    · rw [if_neg hk] at h
      rw [if_neg hk]
      exact ih h

theorem lookup_map_replace_ne (d : List (String × JVal)) (k k' : String) (v : JVal)
    (h : ¬ k' = k) :
    (d.map (fun p => if p.1 = k then (k, v) else p)).lookup k' = d.lookup k' := by
  induction d with
  | nil => rfl
  | cons a ds ih =>
    rcases a with ⟨ak, av⟩
    rw [List.map_cons]
    by_cases ha : ak = k
    · have hhead : (if (ak, av).1 = k then (k, v) else (ak, av)) = (k, v) := by simp [ha]
      rw [hhead, lookup_cons_pair, lookup_cons_pair, if_neg h,
        if_neg (fun hc => h (hc.trans ha))]
      exact ih
    · have hhead : (if (ak, av).1 = k then (k, v) else (ak, av)) = (ak, av) := by simp [ha]
      rw [hhead, lookup_cons_pair, lookup_cons_pair]
      by_cases hk : k' = ak
      · rw [if_pos hk, if_pos hk]
      · rw [if_neg hk, if_neg hk]
        exact ih

theorem lookup_map_replace_self (d : List (String × JVal)) (k : String) (v : JVal)
    (h : (d.lookup k).isSome) :
    (d.map (fun p => if p.1 = k then (k, v) else p)).lookup k = some v := by
  induction d with
  | nil => simp [List.lookup] at h
  | cons a ds ih =>
    rcases a with ⟨ak, av⟩
    rw [List.map_cons]
    by_cases ha : ak = k
    · have hhead : (if (ak, av).1 = k then (k, v) else (ak, av)) = (k, v) := by simp [ha]
      rw [hhead, lookup_cons_pair, if_pos rfl]
    · have hhead : (if (ak, av).1 = k then (k, v) else (ak, av)) = (ak, av) := by simp [ha]
      rw [lookup_cons_pair, if_neg (fun hc => ha hc.symm)] at h
      rw [hhead, lookup_cons_pair, if_neg (fun hc => ha hc.symm)]
      exact ih h

theorem lookup_dictSet_self (d : List (String × JVal)) (k : String) (v : JVal) :
    (dictSet d k v).lookup k = some v := by
  unfold dictSet
  split_ifs with hp
  · exact lookup_map_replace_self d k v hp
  · have hn : d.lookup k = none := Option.not_isSome_iff_eq_none.mp hp
    rw [lookup_append_of_none d _ k hn, lookup_cons_pair, if_pos rfl]

theorem lookup_dictSet_ne (d : List (String × JVal)) (k k' : String) (v : JVal)
    (h : ¬ k' = k) : (dictSet d k v).lookup k' = d.lookup k' := by
  unfold dictSet
  split_ifs with hp
  · exact lookup_map_replace_ne d k k' v h
  · rcases ho : d.lookup k' with _ | w
    · rw [lookup_append_of_none d _ k' ho, lookup_cons_pair, if_neg h]
      rfl
    · rw [lookup_append_of_some d _ k' w ho]

/-- C7: serialising a ResultRecord to the persisted JSON object and
reloading it through the aggregator yields the record with every original
key-value pair unchanged (numeric fields identical) plus exactly two
appended fields, `hardware` and `latency_per_text_ms`. -/
theorem result_record_roundtrip (r : ResultRecord) (hw : String) :
    load_record hw r.toJson
      = r.toJson ++ [("hardware", JVal.str hw),
          ("latency_per_text_ms",
            if jTruthy (JVal.num (r.batch_size : ℚ))
            then JVal.num (pyRound 3 (r.p99_latency_ms / (r.batch_size : ℚ)))
            else JVal.num 0)]
    ∧ (load_record hw r.toJson).map Prod.fst
      = r.toJson.map Prod.fst ++ ["hardware", "latency_per_text_ms"] :=
  ⟨rfl, rfl⟩

/-! ## Sortedness of the aggregated summary -/

theorem sortKeyLe_trans : ∀ (a b c : List (String × JVal)),
    decide (sort_key a ≤ sort_key b) = true → decide (sort_key b ≤ sort_key c) = true →
    decide (sort_key a ≤ sort_key c) = true := fun _ _ _ h1 h2 =>
  decide_eq_true (le_trans (of_decide_eq_true h1) (of_decide_eq_true h2))

theorem sortKeyLe_total : ∀ (a b : List (String × JVal)),
    (decide (sort_key a ≤ sort_key b) || decide (sort_key b ≤ sort_key a)) = true := by
  intro a b
  rcases le_total (sort_key a) (sort_key b) with h | h <;> simp [h]

theorem perm_pair_eq {α : Type} {l : List α} {a b : α} (h : l.Perm [a, b]) :
    l = [a, b] ∨ l = [b, a] := by
  have hlen : l.length = 2 := by simpa using h.length_eq
  rcases l with _ | ⟨x, l1⟩
  · simp at hlen
  rcases l1 with _ | ⟨y, l2⟩
  · simp at hlen
  rcases l2 with _ | ⟨z, l3⟩
  · have hx : x ∈ [a, b] := h.subset (by simp)
    rcases (by simpa using hx : x = a ∨ x = b) with rfl | rfl
    · have h2 : [y].Perm [b] := h.cons_inv
      have : y = b := by simpa using h2
      subst this
      left
      rfl
    · have hswap : ([a, x] : List α).Perm [x, a] := List.Perm.swap x a []
      have h2 : [y].Perm [a] := (h.trans hswap).cons_inv
      have : y = a := by simpa using h2
      subst this
      right
      rfl
  · simp at hlen

/-- C8: the aggregated summary is the loaded records sorted ascending by
the lexicographic tuple `(model, hardware, chunk_size, batch_size,
concurrency)`: the output is sorted by that key and is a permutation of
the input (every loaded record appears as its own row); in particular two
records whose keys differ only in `hardware` come out adjacent, ordered
lexicographically by hardware (third conjunct, for the two-file
scenario). -/
theorem summary_sorted_by_key (rs : List (List (String × JVal))) :
    (sortRecords rs).Sorted (fun a b => sort_key a ≤ sort_key b)
    ∧ (sortRecords rs).Perm rs
    ∧ (∀ r1 r2 : List (String × JVal), sort_key r1 < sort_key r2 →
        sortRecords [r2, r1] = [r1, r2]) := by
  have hsorted : ∀ (l : List (List (String × JVal))),
      (sortRecords l).Sorted (fun a b => sort_key a ≤ sort_key b) := by
    intro l
    have hp := List.sorted_mergeSort sortKeyLe_trans sortKeyLe_total l
    exact hp.imp (fun hab => of_decide_eq_true hab)
  refine ⟨hsorted rs, List.mergeSort_perm rs _, ?_⟩
  intro r1 r2 hlt
  have hperm : (sortRecords [r2, r1]).Perm [r2, r1] := List.mergeSort_perm _ _
  rcases perm_pair_eq hperm with heq | heq
  · exfalso
    have hs := hsorted [r2, r1]
    rw [heq] at hs
    have hle : sort_key r2 ≤ sort_key r1 := List.rel_of_pairwise_cons hs (by simp)
    exact absurd hle (not_le.mpr hlt)
  · exact heq

/-- Witness for C8: two records identical except for the hardware label,
sorted into ascending hardware order. -/
theorem summary_sorted_by_key_witness :
    sort_key [("model", JVal.str "intfloat/e5-base-v2"), ("hardware", JVal.str "a100")]
      < sort_key [("model", JVal.str "intfloat/e5-base-v2"), ("hardware", JVal.str "h100")]
    ∧ sortRecords
        [[("model", JVal.str "intfloat/e5-base-v2"), ("hardware", JVal.str "h100")],
         [("model", JVal.str "intfloat/e5-base-v2"), ("hardware", JVal.str "a100")]]
      = [[("model", JVal.str "intfloat/e5-base-v2"), ("hardware", JVal.str "a100")],
         [("model", JVal.str "intfloat/e5-base-v2"), ("hardware", JVal.str "h100")]] := by
  have hkey : sort_key [("model", JVal.str "intfloat/e5-base-v2"), ("hardware", JVal.str "a100")]
      < sort_key [("model", JVal.str "intfloat/e5-base-v2"), ("hardware", JVal.str "h100")] := by
    show toLex ("intfloat/e5-base-v2",
        toLex ("a100", toLex ((0:ℚ), toLex ((0:ℚ), (0:ℚ)))))
      < toLex ("intfloat/e5-base-v2",
        toLex ("h100", toLex ((0:ℚ), toLex ((0:ℚ), (0:ℚ)))))
    refine (Prod.Lex.lt_iff _ _).mpr (Or.inr ⟨rfl, ?_⟩)
    refine (Prod.Lex.lt_iff _ _).mpr (Or.inl ?_)
    rw [String.lt_iff_toList_lt]
    decide
  exact ⟨hkey,
    (summary_sorted_by_key
      [[("model", JVal.str "intfloat/e5-base-v2"), ("hardware", JVal.str "h100")],
       [("model", JVal.str "intfloat/e5-base-v2"), ("hardware", JVal.str "a100")]]).2.2
      _ _ hkey⟩

/-! ## The derived latency_per_text_ms field -/

theorem load_record_lpt (hw : String) (d : List (String × JVal)) :
    (load_record hw d).lookup "latency_per_text_ms"
      = some (if jTruthy (dictGetD (dictSet d "hardware" (JVal.str hw)) "batch_size" (JVal.num 1))
              then JVal.num (pyRound 3
                (jNum (dictGetD (dictSet d "hardware" (JVal.str hw)) "p99_latency_ms" (JVal.num 0))
                  / jNum (dictGetD (dictSet d "hardware" (JVal.str hw)) "batch_size" (JVal.num 1))))
              else JVal.num 0) :=
  lookup_dictSet_self _ _ _

theorem dictGetD_dictSet_ne (d : List (String × JVal)) (k k' : String) (v dv : JVal)
    (h : ¬ k' = k) : dictGetD (dictSet d k v) k' dv = dictGetD d k' dv := by
  unfold dictGetD
  rw [lookup_dictSet_ne d k k' v h]

/-- C10 (amended): in the aggregator, a `batch_size` field that is
present and `0` (falsy) short-circuits `latency_per_text_ms` to `0.0`
instead of dividing by zero; a *missing* `batch_size` defaults to `1`, so
`latency_per_text_ms = round(p99 / 1, 3)` (not `0.0`); a missing
`p99_latency_ms` defaults to `0.0`; otherwise
`latency_per_text_ms = round(p99 / batch_size, 3)`. -/
theorem latency_per_text_guarded (d : List (String × JVal)) (hw : String) :
    (d.lookup "batch_size" = some (JVal.num 0) →
      (load_record hw d).lookup "latency_per_text_ms" = some (JVal.num 0))
    ∧ (d.lookup "batch_size" = none → ∀ p : ℚ,
        d.lookup "p99_latency_ms" = some (JVal.num p) →
        (load_record hw d).lookup "latency_per_text_ms"
          = some (JVal.num (pyRound 3 (p / 1))))
    ∧ (d.lookup "p99_latency_ms" = none → ∀ q : ℚ,
        d.lookup "batch_size" = some (JVal.num q) → ¬ q = 0 →
        (load_record hw d).lookup "latency_per_text_ms"
          = some (JVal.num (pyRound 3 (0 / q))))
    ∧ (∀ q p : ℚ, d.lookup "batch_size" = some (JVal.num q) → ¬ q = 0 →
        d.lookup "p99_latency_ms" = some (JVal.num p) →
        (load_record hw d).lookup "latency_per_text_ms"
          = some (JVal.num (pyRound 3 (p / q)))) := by
  refine ⟨?_, ?_, ?_, ?_⟩
  · intro h0
    rw [load_record_lpt,
      dictGetD_dictSet_ne d "hardware" "batch_size" (JVal.str hw) (JVal.num 1) (by decide),
      dictGetD_dictSet_ne d "hardware" "p99_latency_ms" (JVal.str hw) (JVal.num 0) (by decide)]
    unfold dictGetD
    rw [h0]
    simp [jTruthy]
  · intro h0 p hp
    rw [load_record_lpt,
      dictGetD_dictSet_ne d "hardware" "batch_size" (JVal.str hw) (JVal.num 1) (by decide),
      dictGetD_dictSet_ne d "hardware" "p99_latency_ms" (JVal.str hw) (JVal.num 0) (by decide)]
    unfold dictGetD
    rw [h0, hp]
    simp [jTruthy, jNum]
  · intro h0 q hq hqne
    rw [load_record_lpt,
      dictGetD_dictSet_ne d "hardware" "batch_size" (JVal.str hw) (JVal.num 1) (by decide),
      dictGetD_dictSet_ne d "hardware" "p99_latency_ms" (JVal.str hw) (JVal.num 0) (by decide)]
    unfold dictGetD
    rw [h0, hq]
    simp [jTruthy, jNum, hqne]
  · intro q p hq hqne hp
    rw [load_record_lpt,
      dictGetD_dictSet_ne d "hardware" "batch_size" (JVal.str hw) (JVal.num 1) (by decide),
      dictGetD_dictSet_ne d "hardware" "p99_latency_ms" (JVal.str hw) (JVal.num 0) (by decide)]
    unfold dictGetD
    rw [hq, hp]
    simp [jTruthy, jNum, hqne]

/-- Witness for C10 (amended) at a record with `batch_size = 0` and one
with `batch_size = 4, p99 = 10`. -/
theorem latency_per_text_guarded_witness :
    ([("batch_size", JVal.num 0)] : List (String × JVal)).lookup "batch_size"
        = some (JVal.num 0)
    ∧ (load_record "h100" [("batch_size", JVal.num 0)]).lookup "latency_per_text_ms"
        = some (JVal.num 0)
    ∧ (load_record "h100" [("batch_size", JVal.num 4), ("p99_latency_ms", JVal.num 10)]).lookup
        "latency_per_text_ms" = some (JVal.num (pyRound 3 ((10:ℚ) / 4))) :=
  ⟨rfl,
   (latency_per_text_guarded [("batch_size", JVal.num 0)] "h100").1 rfl,
   (latency_per_text_guarded [("batch_size", JVal.num 4), ("p99_latency_ms", JVal.num 10)]
     "h100").2.2.2 4 10 rfl (by norm_num) rfl⟩

/-- C10 counterexample: a record with `batch_size` missing and
`p99_latency_ms = 5` gets `latency_per_text_ms = round(5/1, 3) = 5`, not
`0.0` — the frozen claim's "batch_size 0 **or missing** ⟹ 0.0" fails on
the missing case (the code defaults a missing batch_size to 1). -/
theorem latency_per_text_missing_batch_counterexample :
    (load_record "h100" [("p99_latency_ms", JVal.num 5)]).lookup "latency_per_text_ms"
      = some (JVal.num (pyRound 3 ((5:ℚ) / 1)))
    ∧ pyRound 3 ((5:ℚ) / 1) = 5
    ∧ (load_record "h100" [("p99_latency_ms", JVal.num 5)]).lookup "latency_per_text_ms"
      ≠ some (JVal.num 0) := by
  have h2 : pyRound 3 ((5:ℚ) / 1) = 5 := by
    rw [show ((5:ℚ) / 1) = 5 by norm_num]
    exact pyRound_eq_self 5000 (by norm_num)
  have h1 : (load_record "h100" [("p99_latency_ms", JVal.num 5)]).lookup "latency_per_text_ms"
      = some (JVal.num (pyRound 3 ((5:ℚ) / 1))) := rfl
  refine ⟨h1, h2, ?_⟩
  intro hc
  rw [h1, h2] at hc
  have := Option.some.inj hc
  injection this with hnum
  norm_num at hnum

end EmbeddingBench
